import Mathlib

/-!
# Verification of `mongo-service-profiler`

Shallow embedding of the `mongostat.py` script and of the legacy
statistics-accumulator core described by the repository's specification.
The script itself (`src/mongostat.py`) contains the CRUD load generator,
the database-delegated aggregations and the CLI glue; the legacy
accumulator variant (Field Extractor, Record Classifier, Statistics
Accumulator) is not present under `src/`, so those components are
modelled from the specification's contracts.
-/

namespace MongoProfiler

mutual
/-- BSON-like document values, as they appear in profiler records:
strings, integers, booleans, arrays and nested documents. -/
inductive BVal where
  | str  : String → BVal
  | int  : Int → BVal
  | bool : Bool → BVal
  | arr  : BArr → BVal
  | doc  : BDoc → BVal
/-- A document: an ordered association list of key/value pairs, the way a
Python `dict` preserves insertion order. -/
inductive BDoc where
  | nil  : BDoc
  | cons : String → BVal → BDoc → BDoc
/-- An array of values. -/
inductive BArr where
  | nil  : BArr
  | cons : BVal → BArr → BArr
end

/-- Builds a document from a list of key/value pairs (notation helper;
a document is still the `BDoc` spine underneath). -/
def BDoc.ofList : List (String × BVal) → BDoc
  | [] => .nil
  | (k, v) :: rest => .cons k v (BDoc.ofList rest)

/-- The keys of a document, in insertion order. -/
def BDoc.keys : BDoc → List String
  | .nil => []
  | .cons k _ rest => k :: rest.keys

/-- The values of a document, in insertion order. -/
def BDoc.vals : BDoc → List BVal
  | .nil => []
  | .cons _ v rest => v :: rest.vals

/-- Tests whether the value is a nested mapping (a sub-document). -/
def BVal.isDoc : BVal → Bool
  | .doc _ => true
  | _ => false

/-- Python `dict.get`: first binding of key `k` in the document. -/
def lookupKey : BDoc → String → Option BVal
  | .nil, _ => none
  | .cons k v rest, key => if k = key then some v else lookupKey rest key

/-- Python `dict.pop(k, default)` side: the document with every binding
of `k` removed. -/
def removeKey : BDoc → String → BDoc
  | .nil, _ => .nil
  | .cons k v rest, key =>
    if k = key then removeKey rest key else .cons k v (removeKey rest key)

/-- Modelled from the spec: the **Field Extractor** (§4.1), absent from
`src/`.  For each key/value pair of the input mapping, if the value is
itself a mapping, recurse with the parent path extended by the key and
append the results; otherwise emit the single field path `parent ++ [k]`.
Scalar, array and other non-mapping values terminate the path at the key
holding them. -/
def extractFields : BDoc → List String → List (List String)
  | .nil, _ => []
  | .cons k (.doc sub) rest, parent =>
      extractFields sub (parent ++ [k]) ++ extractFields rest parent
  | .cons k _ rest, parent => (parent ++ [k]) :: extractFields rest parent

/-- Characters of the dotted rendering of a field path (join by `.`). -/
def dotJoin : List String → List Char
  | [] => []
  | [s] => s.data
  | s :: rest => s.data ++ '.' :: dotJoin rest

/-- Dotted-string rendering of a field path, e.g. `["date", "x"] ↦ "date.x"`. -/
def renderPath (p : List String) : String := ⟨dotJoin p⟩

/-- Python `str.split(sep)` for a one-character separator: splits at every
occurrence, keeping empty chunks (so `"a  b" ↦ ["a", "", "b"]` and
`"" ↦ [""]`). -/
def splitOnChar (c : Char) : List Char → List (List Char)
  | [] => [[]]
  | x :: xs =>
    match splitOnChar c xs with
    | [] => [[]]
    | h :: t => if x = c then [] :: h :: t else (x :: h) :: t

/-- Python `s.split(c)` on strings. -/
def pySplit (s : String) (c : Char) : List String :=
  (splitOnChar c s.data).map (fun l => ⟨l⟩)

/-- Python `ns.split(".")[-1]`: the last dot-separated segment. -/
def lastSegment (ns : String) : String := (pySplit ns '.').getLastD ""

/-- Python `ns.endswith(".$cmd")`: command-namespace test. -/
def endsWithCmd (ns : String) : Bool := List.isSuffixOf ".$cmd".data ns.data

/-- One profiler record, as supplied by the `system.profile` collection:
a loosely structured mapping with a namespace string, optional
`query`/`command` values (any shape) and optional numeric `millis` and
`nscanned` fields. -/
structure ProfilerRecord where
  ns : String
  query : Option BVal
  command : Option BVal
  millis : Option Int
  nscanned : Option Int

/-- Modelled from the spec: the **Record Classifier** (§4.2), absent from
`src/`.  Returns the target collection and the dotted field signatures of
the record's query shape, or a recoverable classification failure
(`InvalidRecordError`) when a required key is absent or of the wrong
shape.  Command-shaped records (namespace ending in `.$cmd`): pop the
`query` sub-mapping (default empty) and extract its fields, drop the
`fields` projection key, and read the collection off the single remaining
key/value pair.  Legacy query-shaped records: the collection is the last
dot-separated segment of the namespace, the query document is the value
under `$query` when present (otherwise the whole `query` field), and
`$orderby` fields get an explicit `$orderby` marker suffix. -/
def classify (r : ProfilerRecord) : Except String (String × List String) :=
  if endsWithCmd r.ns then
    match r.command with
    | some (.doc cmd) => do
      let qdoc ← match lookupKey cmd "query" with
        | some (.doc q) => Except.ok q
        | some _ => Except.error "InvalidRecordError: command.query is not a mapping"
        | none => Except.ok BDoc.nil
      match removeKey (removeKey cmd "query") "fields" with
      | .cons _ (.str coll) .nil =>
          Except.ok (coll, (extractFields qdoc []).map renderPath)
      | _ => Except.error "InvalidRecordError: cannot determine command collection"
    | some _ => Except.error "InvalidRecordError: command is not a mapping"
    | none => Except.error "InvalidRecordError: missing command"
  else
    match r.query with
    | some (.doc outer) => do
      let qdoc ← match lookupKey outer "$query" with
        | some (.doc q) => Except.ok q
        | some _ => Except.error "InvalidRecordError: $query is not a mapping"
        | none => Except.ok outer
      let obSigs ← match lookupKey outer "$orderby" with
        | some (.doc ob) =>
            Except.ok ((extractFields ob []).map
              (fun p => renderPath (p ++ ["$orderby"])))
        | some _ => Except.error "InvalidRecordError: $orderby is not a mapping"
        | none => Except.ok []
      Except.ok (lastSegment r.ns, (extractFields qdoc []).map renderPath ++ obSigs)
    | some _ => Except.error "InvalidRecordError: query is not a mapping"
    | none => Except.error "InvalidRecordError: missing query"

/-- One running statistics aggregate: observation count, and nullable
sum/min/max for latency (`millis`) and documents scanned (`nscanned`). -/
structure StatEntry where
  count : Nat
  millis_sum : Option Int
  millis_min : Option Int
  millis_max : Option Int
  nscanned_sum : Option Int
  nscanned_min : Option Int
  nscanned_max : Option Int
deriving DecidableEq, Repr

/-- A StatEntry at lazy creation time, before its first observation is
applied: zero count, all aggregates null. -/
def initEntry : StatEntry :=
  ⟨0, none, none, none, none, none, none⟩

/-- Modelled from the spec: the running-sum update of §4.3.  A value that
is present and truthy (non-zero) is added to the running sum (initialised
to the value itself on the first such observation); `0` and absent values
are skipped. -/
def addSum (v : Option Int) (s : Option Int) : Option Int :=
  match v with
  | some m => if m ≠ 0 then some (s.getD 0 + m) else s
  | none => s

/-- Modelled from the spec: the running-min update of §4.3, strict
comparison `new < current_min`, initialised on the first present, non-zero
observation. -/
def updMin (v : Option Int) (mn : Option Int) : Option Int :=
  match v with
  | some m =>
    if m ≠ 0 then
      some (match mn with
            | none => m
            | some c => if m < c then m else c)
    else mn
  | none => mn

/-- Modelled from the spec: the running-max update of §4.3, strict
comparison `new > current_max`, initialised on the first present, non-zero
observation. -/
def updMax (v : Option Int) (mx : Option Int) : Option Int :=
  match v with
  | some m =>
    if m ≠ 0 then
      some (match mx with
            | none => m
            | some c => if m > c then m else c)
    else mx
  | none => mx

/-- Modelled from the spec: one `observe` step applied to an entry —
count incremented by 1, and the millis and nscanned aggregates updated
independently. -/
def updEntry (e : StatEntry) (millis nscanned : Option Int) : StatEntry :=
  { count := e.count + 1
    millis_sum := addSum millis e.millis_sum
    millis_min := updMin millis e.millis_min
    millis_max := updMax millis e.millis_max
    nscanned_sum := addSum nscanned e.nscanned_sum
    nscanned_min := updMin nscanned e.nscanned_min
    nscanned_max := updMax nscanned e.nscanned_max }

/-- Insertion into a strictly sorted list of strings, dropping
duplicates: used to canonicalise a field-signature collection into an
order-insensitive set key. -/
def insertSorted (s : String) : List String → List String
  | [] => [s]
  | t :: ts =>
    if s = t then t :: ts
    else if s < t then s :: t :: ts
    else t :: insertSorted s ts

/-- Canonical (sorted, de-duplicated) form of a field-signature
collection, so that the StatKey is order-insensitive as §3 requires. -/
def canonSigs (sigs : List String) : List String :=
  sigs.foldr insertSorted []

/-- The accumulator store: a mapping from StatKey — (collection,
canonical field-signature set) — to the running StatEntry, `none` for
keys never observed. -/
def Store : Type := String × List String → Option StatEntry

/-- The fresh accumulator: no StatKey has an entry yet. -/
def emptyStore : Store := fun _ => none

/-- Modelled from the spec: the **Statistics Accumulator**'s
`observe(collection, field_signatures, millis, nscanned)` (§4.3) — builds
the order-insensitive StatKey, looks up or lazily creates the StatEntry,
increments its count, and folds `millis` / `nscanned` into the
sum/min/max aggregates (zero and absent values excluded). -/
def observe (σ : Store) (coll : String) (sigs : List String)
    (millis nscanned : Option Int) : Store :=
  fun k =>
    if k = (coll, canonSigs sigs) then
      some (updEntry ((σ k).getD initEntry) millis nscanned)
    else σ k

/-- One classified observation, ready to be fed to `observe`. -/
structure Obs where
  coll : String
  sigs : List String
  millis : Option Int
  nscanned : Option Int
deriving DecidableEq, Repr

/-- Feeding a batch of observations to the accumulator in order. -/
def observeAll (σ : Store) (l : List Obs) : Store :=
  l.foldl (fun σ o => observe σ o.coll o.sigs o.millis o.nscanned) σ

/-- The per-record boundary of the scan: a classified record is fed to
`observe`; a classification failure is caught, the record skipped and the
accumulator left untouched. -/
def processRecord (σ : Store) (r : ProfilerRecord) : Store :=
  match classify r with
  | .ok (coll, sigs) => observe σ coll sigs r.millis r.nscanned
  | .error _ => σ

/-- The whole scan: every record of the profiler cursor flows through
Classifier → Accumulator, skipped records notwithstanding. -/
def processAll (σ : Store) (rs : List ProfilerRecord) : Store :=
  rs.foldl processRecord σ

/-! ## The `mongostat.py` script (code under `src/`) -/

/-- The five JavaScript snippets of `MapCodes` in `mongostat.py`.  Their
text is handed verbatim to the server and never inspected client-side, so
each is embedded as an opaque tag identifying the fixed script. -/
inductive JsCode where
  | scrubber
  | stripcontext
  | mapCommand
  | reduceCommand
  | finalizeCommand
deriving DecidableEq, Repr

/-- A map-reduce job as the script submits it: map/reduce/finalize
scripts plus the named scope bindings. -/
structure MapReduceJob where
  map : JsCode
  reduce : JsCode
  finalize : JsCode
  scope : List (String × JsCode)
deriving DecidableEq, Repr

/-- The fixed map-reduce job built by `group_by_command_inline` and
`group_by_command_commit` (`mongostat.py` lines 395–404 and 427–435). -/
def commandJob : MapReduceJob :=
  { map := .mapCommand
    reduce := .reduceCommand
    finalize := .finalizeCommand
    scope := [("scrubber", .scrubber), ("stripcontext", .stripcontext)] }

/-- The aggregation pipeline of `Aggregator.group_by_app`
(`mongostat.py` lines 333–349), transcribed literally. -/
def appPipeline : List BVal :=
  [ .doc (.ofList [("$group", .doc (.ofList
      [("_id", .doc (.ofList [("appName", .str "$appName"), ("op", .str "$op")])),
       ("total", .doc (.ofList [("$sum", .int 1)]))]))]),
    .doc (.ofList [("$project", .doc (.ofList
      [("appName", .str "$_id.appName"),
       ("op", .str "$_id.op"),
       ("total", .str "$total"),
       ("_id", .int 0)]))]),
    .doc (.ofList [("$sort", .doc (.ofList [("appName", .int 1)]))]) ]

/-- The aggregation pipeline of `Aggregator.group_by_op`
(`mongostat.py` lines 363–374), transcribed literally. -/
def opPipeline : List BVal :=
  [ .doc (.ofList [("$group", .doc (.ofList
      [("_id", .str "$op"),
       ("apps", .doc (.ofList [("$addToSet", .str "$appName")])),
       ("total", .doc (.ofList [("$sum", .int 1)]))]))]) ]

/-- The database server, abstracted: what it answers to an aggregation
request (collection, pipeline) and to an inline map-reduce request
(collection, job).  The client never looks inside the answers. -/
structure ServerModel where
  aggregate : String → List BVal → List BVal
  inlineMapReduce : String → MapReduceJob → List BVal

/-- Embeds `Aggregator.group_by_app`: submits the fixed pipeline against the
profile collection and pretty-prints the materialised cursor; the value
returned here is exactly the list of documents printed. -/
def group_by_app (srv : ServerModel) (coll : String) : List BVal :=
  srv.aggregate coll appPipeline

/-- Embeds `Aggregator.group_by_op`: submits the fixed pipeline and prints the
materialised cursor unchanged. -/
def group_by_op (srv : ServerModel) (coll : String) : List BVal :=
  srv.aggregate coll opPipeline

/-- Embeds `Aggregator.group_by_command_inline`: submits the fixed map-reduce
job inline and prints the server's result unchanged. -/
def group_by_command_inline (srv : ServerModel) (coll : String) : List BVal :=
  srv.inlineMapReduce coll commandJob

/-- Embeds `Aggregator.group_by_command_commit`: submits the fixed map-reduce
job with `out` as the output collection and prints a line reporting the
committed collection.  Returned here: the request issued (collection,
job, output collection) and the printed line. -/
def group_by_command_commit (coll out : String) :
    (String × MapReduceJob × String) × String :=
  ((coll, commandJob, out),
   "--- Output commited into => " ++ out ++ " collection")

/-- The database operations a `DBActor` can issue against the `post`
collection (`update_one`'s filter is `{"_id": id}`, `find_one`'s filter is
`{"id": id}`, `delete_one`'s filter is `{"_id": id}`). -/
inductive DbOp where
  | updateOne (id : Nat)
  | findOne (id : Nat)
  | deleteOne (id : Nat)
deriving DecidableEq, Repr

/-- The mutable state of a `DBActor`: its cached `_idlist`. -/
structure DBActorState where
  idlist : List Nat
deriving DecidableEq, Repr

/-- Python `random.choice(l)`: raises `IndexError` on an empty sequence,
otherwise returns the element picked by the (abstracted) random source. -/
def randomChoice (choose : List Nat → Nat) (l : List Nat) : Except String Nat :=
  if l.isEmpty then Except.error "IndexError: cannot choose from an empty sequence"
  else Except.ok (choose l)

/-- Embeds `DBActor.update`: when `_idlist` is non-empty, picks a random id and
updates that post; otherwise does nothing.  Returns the issued operations
and the new state. -/
def DBActorState.update (choose : List Nat → Nat) (st : DBActorState) :
    Except String (List DbOp × DBActorState) :=
  if st.idlist.length > 0 then do
    let upid ← randomChoice choose st.idlist
    Except.ok ([.updateOne upid], st)
  else Except.ok ([], st)

/-- Embeds `DBActor.read`: when `_idlist` is non-empty, picks a random id and
issues a `find_one`; otherwise does nothing. -/
def DBActorState.read (choose : List Nat → Nat) (st : DBActorState) :
    Except String (List DbOp × DBActorState) :=
  if st.idlist.length > 0 then do
    let upid ← randomChoice choose st.idlist
    Except.ok ([.findOne upid], st)
  else Except.ok ([], st)

/-- Embeds `DBActor.delete`: when `_idlist` is non-empty, picks a random id,
deletes that post and removes the first occurrence of the id from
`_idlist` (Python `list.remove`); otherwise does nothing. -/
def DBActorState.delete (choose : List Nat → Nat) (st : DBActorState) :
    Except String (List DbOp × DBActorState) :=
  if st.idlist.length > 0 then do
    let upid ← randomChoice choose st.idlist
    Except.ok ([.deleteOne upid], { st with idlist := st.idlist.erase upid })
  else Except.ok ([], st)

/-- The `while self._counter < self._ticks` loop of `CRUDRuntime.run`,
counting body executions: the counter goes up by exactly 1 per iteration
(the randomly chosen actor actions, abstracted away here, do not touch
it). -/
def loopIters (counter ticks : Int) : Nat :=
  if counter < ticks then loopIters (counter + 1) ticks + 1 else 0
termination_by (ticks - counter).toNat
decreasing_by simp_wf; omega

/-- Embeds `CRUDRuntime.run` observable behaviour: starting from `_counter = 0`,
the number of loop-body executions, and the line printed on exit. -/
def CRUDRuntime.run (ticks : Int) : Nat × String :=
  (loopIters 0 ticks, "Done")

/-- Default connection parameters of the `__main__` block
(`mongostat.py` lines 466–468). -/
def defaultUrl : String := "mongodb://127.0.0.1:27017"

/-- Default database name. -/
def defaultDb : String := "test"

/-- Default profile collection name. -/
def defaultCollection : String := "system.profile"

/-- The `--connect` fallback of the `__main__` block (`mongostat.py`
lines 477–488): split the argument on single spaces; with exactly three
parts they become url/db/collection, otherwise a usage hint is printed
(the Boolean returned here) and the defaults are kept.  Never fails. -/
def resolveConnect (connect : Option String) : (String × String × String) × Bool :=
  match connect with
  | none => ((defaultUrl, defaultDb, defaultCollection), false)
  | some s =>
    let parts := pySplit s ' '
    if parts.length = 3 then
      ((parts.getD 0 "", parts.getD 1 "", parts.getD 2 ""), false)
    else
      ((defaultUrl, defaultDb, defaultCollection), true)

/-! ## Derived notions used by the statements -/

/-- One accumulation step of the scan, as a binary operation on the
store. -/
def stepObs (σ : Store) (o : Obs) : Store :=
  observe σ o.coll o.sigs o.millis o.nscanned

/-- The per-entry invariant of §3: positive count, and min ≤ max for each
of the two metrics whenever both ends are non-null. -/
def entryInv (e : StatEntry) : Prop :=
  1 ≤ e.count ∧
  (∀ a b, e.millis_min = some a → e.millis_max = some b → a ≤ b) ∧
  (∀ a b, e.nscanned_min = some a → e.nscanned_max = some b → a ≤ b)

/-- The store-wide invariant: every entry ever created satisfies
`entryInv`. -/
def storeInv (σ : Store) : Prop :=
  ∀ k e, σ k = some e → entryInv e

/-- The legacy query-shaped profiler record of the spec's §8 scenario:
`{"ns": "test.posts", "query": {"$query": {"author": "bob"},
"$orderby": {"date": -1}}}`. -/
def legacyQueryRecord : ProfilerRecord :=
  { ns := "test.posts"
    query := some (.doc (.ofList
      [("$query", .doc (.ofList [("author", .str "bob")])),
       ("$orderby", .doc (.ofList [("date", .int (-1))]))]))
    command := none
    millis := some 120
    nscanned := some 3 }

/-- A legacy query-shaped record without the `$query` wire-protocol
wrapper: the whole `query` field is the query document. -/
def plainQueryRecord : ProfilerRecord :=
  { ns := "test.items"
    query := some (.doc (.ofList [("author", .str "bob")]))
    command := none
    millis := none
    nscanned := none }

/-- An administrative record with no `query`/`command` field at all: the
kind of heterogeneous record a profiler collection routinely contains. -/
def noQueryRecord : ProfilerRecord :=
  { ns := "test.posts"
    query := none
    command := none
    millis := some 7
    nscanned := some 1 }

/-! ## Helper lemmas -/

lemma loopIters_eq (c t : Int) : loopIters c t = (t - c).toNat := by
  generalize hn : (t - c).toNat = n
  induction n generalizing c with
  | zero => rw [loopIters, if_neg (by omega)]
  | succ k ih => rw [loopIters, if_pos (by omega), ih (c + 1) (by omega)]

lemma addSum_comm (a b s : Option Int) :
    addSum a (addSum b s) = addSum b (addSum a s) := by
  cases a <;> cases b <;> simp [addSum] <;> split_ifs <;> (simp; try omega)

lemma updMin_comm (a b mn : Option Int) :
    updMin a (updMin b mn) = updMin b (updMin a mn) := by
  cases a <;> cases b <;> cases mn <;> simp [updMin] <;> split_ifs <;> simp_all <;> omega

lemma updMax_comm (a b mx : Option Int) :
    updMax a (updMax b mx) = updMax b (updMax a mx) := by
  cases a <;> cases b <;> cases mx <;> simp [updMax] <;> split_ifs <;> simp_all <;> omega

lemma updEntry_comm (e : StatEntry) (m1 n1 m2 n2 : Option Int) :
    updEntry (updEntry e m1 n1) m2 n2 = updEntry (updEntry e m2 n2) m1 n1 := by
  simp [updEntry, addSum_comm, updMin_comm, updMax_comm]

lemma stepObs_comm (σ : Store) (a b : Obs) :
    stepObs (stepObs σ a) b = stepObs (stepObs σ b) a := by
  funext k
  by_cases h1 : k = (a.coll, canonSigs a.sigs) <;>
    by_cases h2 : k = (b.coll, canonSigs b.sigs)
  · have hA : (a.coll, canonSigs a.sigs) = (b.coll, canonSigs b.sigs) :=
      h1.symm.trans h2
    have hc : a.coll = b.coll := congrArg Prod.fst hA
    have hs : canonSigs a.sigs = canonSigs b.sigs := congrArg Prod.snd hA
    simp only [stepObs, observe, h1, h2, hc, hs, if_pos rfl, and_self,
      if_true, Option.getD_some]
    rw [updEntry_comm]
  · have hn : ¬(a.coll = b.coll ∧ canonSigs a.sigs = canonSigs b.sigs) := by
      rintro ⟨hc, hs⟩
      exact h2 (by rw [h1, hc, hs])
    simp [stepObs, observe, h1, h2, hn]
  · have hn : ¬(b.coll = a.coll ∧ canonSigs b.sigs = canonSigs a.sigs) := by
      rintro ⟨hc, hs⟩
      exact h1 (by rw [h2, hc, hs])
    simp [stepObs, observe, h1, h2, hn]
  · simp [stepObs, observe, h1, h2]

lemma observeAll_eq_foldl (σ : Store) (l : List Obs) :
    observeAll σ l = l.foldl stepObs σ := rfl

lemma observeAll_perm {l₁ l₂ : List Obs} (h : l₁.Perm l₂) :
    ∀ σ : Store, observeAll σ l₁ = observeAll σ l₂ := by
  induction h with
  | nil => intro σ; rfl
  | cons x p ih =>
    intro σ
    simp only [observeAll_eq_foldl, List.foldl_cons] at *
    exact ih _
  | swap x y l =>
    intro σ
    simp only [observeAll_eq_foldl, List.foldl_cons]
    rw [stepObs_comm]
  | trans p1 p2 ih1 ih2 => intro σ; rw [ih1, ih2]

lemma minmax_upd (v mn mx : Option Int)
    (h : ∀ a b, mn = some a → mx = some b → a ≤ b) :
    ∀ a b, updMin v mn = some a → updMax v mx = some b → a ≤ b := by
  cases v with
  | none => exact h
  | some m =>
    by_cases hm : m = 0
    · simpa [updMin, updMax, hm] using h
    · cases mn with
      | none =>
        cases mx with
        | none =>
          intro a b ha hb
          simp [updMin, updMax, hm] at ha hb
          omega
        | some d =>
          intro a b ha hb
          simp [updMin, updMax, hm] at ha hb
          split_ifs at hb <;> omega
      | some c =>
        cases mx with
        | none =>
          intro a b ha hb
          simp [updMin, updMax, hm] at ha hb
          split_ifs at ha <;> omega
        | some d =>
          have hcd : c ≤ d := h c d rfl rfl
          intro a b ha hb
          simp [updMin, updMax, hm] at ha hb
          split_ifs at ha <;> split_ifs at hb <;> omega

lemma updEntry_inv (e : StatEntry) (m n : Option Int)
    (h1 : ∀ a b, e.millis_min = some a → e.millis_max = some b → a ≤ b)
    (h2 : ∀ a b, e.nscanned_min = some a → e.nscanned_max = some b → a ≤ b) :
    entryInv (updEntry e m n) := by
  refine ⟨by simp [updEntry], ?_, ?_⟩
  · exact minmax_upd m e.millis_min e.millis_max h1
  · exact minmax_upd n e.nscanned_min e.nscanned_max h2

lemma storeInv_empty : storeInv emptyStore := by
  intro k e h
  simp [emptyStore] at h

lemma storeInv_observe (σ : Store) (c : String) (s : List String)
    (m n : Option Int) (h : storeInv σ) :
    storeInv (observe σ c s m n) := by
  intro k e he
  simp only [observe] at he
  split at he
  · cases he
    cases hk : σ k with
    | none =>
      simp only [hk, Option.getD_none] at *
      exact updEntry_inv initEntry m n (by simp [initEntry]) (by simp [initEntry])
    | some e0 =>
      simp only [hk, Option.getD_some]
      exact updEntry_inv e0 m n (h k e0 hk).2.1 (h k e0 hk).2.2
  · exact h k e he

lemma storeInv_observeAll (l : List Obs) :
    ∀ σ : Store, storeInv σ → storeInv (observeAll σ l) := by
  induction l with
  | nil => intro σ h; exact h
  | cons o rest ih =>
    intro σ h
    exact ih _ (storeInv_observe σ o.coll o.sigs o.millis o.nscanned h)

lemma extract_flat : ∀ (D : BDoc) (parent : List String),
    (∀ v ∈ D.vals, v.isDoc = false) →
    extractFields D parent = D.keys.map (fun k => parent ++ [k])
  | .nil, parent, _ => rfl
  | .cons k v rest, parent, h => by
    have hv : v.isDoc = false := h v (by simp [BDoc.vals])
    have hrest : ∀ w ∈ rest.vals, w.isDoc = false :=
      fun w hw => h w (by simp [BDoc.vals, hw])
    have ih := extract_flat rest parent hrest
    cases v <;> simp_all [extractFields, BDoc.keys, BVal.isDoc]

lemma extract_longer : ∀ (D : BDoc) (parent p : List String),
    p ∈ extractFields D parent → parent.length < p.length := by
  intro D parent p h
  induction D, parent using extractFields.induct generalizing p with
  | case1 parent => simp [extractFields] at h
  | case2 k sub rest parent ih1 ih2 =>
    simp only [extractFields, List.mem_append] at h
    rcases h with h | h
    · have := ih1 p h
      simp at this
      omega
    · exact ih2 p h
  | case3 k v rest parent hv ih =>
    have heq : extractFields (.cons k v rest) parent
        = (parent ++ [k]) :: extractFields rest parent := by
      cases v <;> first | rfl | exact (hv _ rfl).elim
    rw [heq, List.mem_cons] at h
    rcases h with h | h
    · subst h; simp
    · exact ih p h

lemma extract_terminal (k : String) (v : BVal) (rest : BDoc) (parent : List String)
    (hv : v.isDoc = false) :
    extractFields (.cons k v rest) parent
      = (parent ++ [k]) :: extractFields rest parent := by
  cases v <;> first | rfl | simp [BVal.isDoc] at hv

lemma classify_legacy_collection (r : ProfilerRecord) (c : String) (sigs : List String)
    (hns : endsWithCmd r.ns = false) (h : classify r = .ok (c, sigs)) :
    c = lastSegment r.ns := by
  unfold classify at h
  rw [hns] at h
  simp only [Bool.false_eq_true, if_false] at h
  repeat' split at h
  all_goals
    first
      | exact Except.noConfusion h
      | (simp only [bind, Except.bind, Except.ok.injEq, Prod.mk.injEq] at h
         exact h.1.symm)

/-! ## Claim theorems -/

/-- C1: a `millis` value of 0 passed to `observe` is excluded from
`millis_sum`, `millis_min` and `millis_max` while a non-zero `nscanned`
of the same call is still accumulated; in particular `observe("coll",
("x",), millis=0, nscanned=5)` on a fresh accumulator yields an entry
with `millis_sum = None`, `count = 1` and `nscanned_sum = 5`. -/
theorem observe_zero_millis_excluded :
    ((observe emptyStore "coll" ["x"] (some 0) (some 5)) ("coll", ["x"]) =
      some { count := 1, millis_sum := none, millis_min := none, millis_max := none,
             nscanned_sum := some 5, nscanned_min := some 5, nscanned_max := some 5 }) ∧
    (∀ (e : StatEntry) (n : Option Int),
      (updEntry e (some 0) n).millis_sum = e.millis_sum ∧
      (updEntry e (some 0) n).millis_min = e.millis_min ∧
      (updEntry e (some 0) n).millis_max = e.millis_max) ∧
    (∀ (e : StatEntry) (m : Option Int),
      (updEntry e m (some 5)).nscanned_sum = some (e.nscanned_sum.getD 0 + 5)) := by
  refine ⟨rfl, ?_, ?_⟩ <;> intros <;>
    simp [updEntry, addSum, updMin, updMax]

/-- C2: feeding the accumulator any permutation of the same multiset of
observations yields the same StatEntry at every StatKey, and feeding a
batch after another equals feeding the concatenation — so partitioning
and reordering the records never changes the result. -/
theorem observe_merge_commutative (l₁ l₂ : List Obs) (h : l₁.Perm l₂) :
    (∀ (σ : Store) (k : String × List String),
      observeAll σ l₁ k = observeAll σ l₂ k) ∧
    (∀ (σ : Store) (m : List Obs),
      observeAll (observeAll σ m) l₁ = observeAll σ (m ++ l₁)) := by
  constructor
  · intro σ k
    rw [observeAll_perm h]
  · intro σ m
    simp only [observeAll_eq_foldl, List.foldl_append]

/-- C2 witness: three concrete observations accumulated in two different
orders give the same entry at the key `("posts", {"author"})`. -/
theorem observe_merge_commutative_witness :
    observeAll emptyStore
        [⟨"posts", ["author"], some 10, some 2⟩,
         ⟨"posts", ["author"], some 30, some 8⟩,
         ⟨"users", ["name"], some 5, none⟩] ("posts", ["author"])
      = observeAll emptyStore
        [⟨"users", ["name"], some 5, none⟩,
         ⟨"posts", ["author"], some 10, some 2⟩,
         ⟨"posts", ["author"], some 30, some 8⟩] ("posts", ["author"]) :=
  (observe_merge_commutative _ _ (by decide)).1 emptyStore ("posts", ["author"])

/-- C3: classifying the legacy query record `{"ns": "test.posts",
"query": {"$query": {"author": "bob"}, "$orderby": {"date": -1}}}`
returns collection `"posts"` with signatures containing `"author"` and
`"date.$orderby"`; a record without the `$query` wrapper uses the whole
`query` field; and for every non-command namespace the returned
collection is the last dot-separated segment of `ns`. -/
theorem classify_legacy_query_scenario :
    (classify legacyQueryRecord = .ok ("posts", ["author", "date.$orderby"]) ∧
     ∃ sigs, classify legacyQueryRecord = .ok ("posts", sigs) ∧
       "author" ∈ sigs ∧ "date.$orderby" ∈ sigs) ∧
    classify plainQueryRecord = .ok ("items", ["author"]) ∧
    (∀ (r : ProfilerRecord) (c : String) (sigs : List String),
      endsWithCmd r.ns = false → classify r = .ok (c, sigs) →
        c = lastSegment r.ns) := by
  refine ⟨⟨rfl, ⟨["author", "date.$orderby"], rfl, by simp, by simp⟩⟩, rfl, ?_⟩
  exact classify_legacy_collection

/-- C3 witness: the general last-segment rule applied to the concrete
record `plainQueryRecord`. -/
theorem classify_legacy_query_scenario_witness :
    "items" = lastSegment "test.items" :=
  classify_legacy_query_scenario.2.2 plainQueryRecord "items" ["author"] rfl rfl

/-- C4: on a document with no nested mapping values the Field Extractor
returns exactly one path per key, each of length 1; in general no
extracted path is empty (every path strictly extends the parent prefix),
and a non-mapping value terminates its path at the key holding it. -/
theorem extract_fields_shape (D : BDoc) (parent : List String) :
    ((∀ v ∈ D.vals, v.isDoc = false) →
      extractFields D [] = D.keys.map (fun k => [k])) ∧
    (∀ p ∈ extractFields D parent, parent.length < p.length) ∧
    (∀ p ∈ extractFields D parent, p ≠ []) ∧
    (∀ (k : String) (v : BVal) (rest : BDoc), v.isDoc = false →
      extractFields (.cons k v rest) parent
        = (parent ++ [k]) :: extractFields rest parent) := by
  refine ⟨?_, ?_, ?_, ?_⟩
  · intro h
    simpa using extract_flat D [] h
  · exact extract_longer D parent
  · intro p hp
    have := extract_longer D parent p hp
    intro hcon
    subst hcon
    simp at this
  · intro k v rest hv
    exact extract_terminal k v rest parent hv

/-- C4 witness: the flat-document clause evaluated on the concrete
two-key document `{"a": 1, "b": []}`. -/
theorem extract_fields_shape_witness :
    extractFields (.cons "a" (.int 1) (.cons "b" (.arr .nil) .nil)) []
      = [["a"], ["b"]] :=
  (extract_fields_shape (.cons "a" (.int 1) (.cons "b" (.arr .nil) .nil)) []).1 (by
    intro v hv
    simp [BDoc.vals] at hv
    rcases hv with h | h <;> subst h <;> rfl)

/-- C5: every StatEntry ever present in the accumulator after any
sequence of `observe` calls from the fresh store has `count ≥ 1`,
`millis_min ≤ millis_max` whenever both are non-null, and likewise for
nscanned. -/
theorem statEntry_invariant (l : List Obs) (k : String × List String)
    (e : StatEntry) (h : observeAll emptyStore l k = some e) :
    1 ≤ e.count ∧
    (∀ a b, e.millis_min = some a → e.millis_max = some b → a ≤ b) ∧
    (∀ a b, e.nscanned_min = some a → e.nscanned_max = some b → a ≤ b) :=
  storeInv_observeAll l emptyStore storeInv_empty k e h

/-- C5 witness: the invariant instantiated at the entry created by a
single concrete observation. -/
theorem statEntry_invariant_witness :
    1 ≤ (⟨1, some 3, some 3, some 3, some 4, some 4, some 4⟩ : StatEntry).count :=
  (statEntry_invariant [⟨"c", ["x"], some 3, some 4⟩] ("c", ["x"])
    ⟨1, some 3, some 3, some 3, some 4, some 4, some 4⟩ rfl).1

/-- C6: when the classifier fails on a record, the per-record boundary
skips it — the accumulator is unchanged and the scan of the remaining
records proceeds exactly as if the record were absent; a legacy record
with no `query` key and a command record with no `command` key are
classification failures. -/
theorem classification_failure_skips_record (r : ProfilerRecord) (msg : String)
    (h : classify r = .error msg) :
    (∀ σ : Store, processRecord σ r = σ) ∧
    (∀ (σ : Store) (rest : List ProfilerRecord),
      processAll σ (r :: rest) = processAll σ rest) ∧
    (∀ r₂ : ProfilerRecord, endsWithCmd r₂.ns = false → r₂.query = none →
      classify r₂ = .error "InvalidRecordError: missing query") ∧
    (∀ r₂ : ProfilerRecord, endsWithCmd r₂.ns = true → r₂.command = none →
      classify r₂ = .error "InvalidRecordError: missing command") := by
  have hskip : ∀ σ : Store, processRecord σ r = σ := by
    intro σ
    simp [processRecord, h]
  refine ⟨hskip, ?_, ?_, ?_⟩
  · intro σ rest
    show processAll (processRecord σ r) rest = processAll σ rest
    rw [hskip]
  · intro r₂ hns hq
    simp [classify, hns, hq]
  · intro r₂ hns hc
    simp [classify, hns, hc]

/-- C6 witness: the skip behaviour applied to the concrete
`noQueryRecord`, whose classification fails for lack of a `query` key. -/
theorem classification_failure_skips_record_witness :
    processRecord emptyStore noQueryRecord = emptyStore :=
  (classification_failure_skips_record noQueryRecord
    "InvalidRecordError: missing query" rfl).1 emptyStore

/-- C7: the four aggregation operations do no client-side grouping,
deduplication or statistics: each hands its fixed pipeline or fixed
map-reduce job to the server verbatim and returns the server's answer
unchanged (for the commit form, the issued request is the fixed job and
the printed line only reports the given output collection). -/
theorem aggregations_delegate_to_server (srv : ServerModel) (coll out : String) :
    group_by_app srv coll = srv.aggregate coll appPipeline ∧
    group_by_op srv coll = srv.aggregate coll opPipeline ∧
    group_by_command_inline srv coll = srv.inlineMapReduce coll commandJob ∧
    (group_by_command_commit coll out).1 = (coll, commandJob, out) ∧
    (group_by_command_commit coll out).2
      = "--- Output commited into => " ++ out ++ " collection" :=
  ⟨rfl, rfl, rfl, rfl, rfl⟩

/-- C8: a DBActor whose `_idlist` is empty performs no database
operation, raises no error, and leaves its state (hence `_idlist`)
unchanged under `read`, `update` and `delete`. -/
theorem dbactor_empty_idlist_noop (choose : List Nat → Nat)
    (st : DBActorState) (h : st.idlist = []) :
    DBActorState.read choose st = .ok ([], st) ∧
    DBActorState.update choose st = .ok ([], st) ∧
    DBActorState.delete choose st = .ok ([], st) := by
  refine ⟨?_, ?_, ?_⟩ <;>
    simp [DBActorState.read, DBActorState.update, DBActorState.delete, h]

/-- C8 witness: the three no-ops evaluated on the concrete empty-idlist
actor state. -/
theorem dbactor_empty_idlist_noop_witness :
    DBActorState.read (fun _ => 0) ⟨[]⟩ = .ok ([], ⟨[]⟩) ∧
    DBActorState.update (fun _ => 0) ⟨[]⟩ = .ok ([], ⟨[]⟩) ∧
    DBActorState.delete (fun _ => 0) ⟨[]⟩ = .ok ([], ⟨[]⟩) :=
  dbactor_empty_idlist_noop (fun _ => 0) ⟨[]⟩ rfl

/-- C9: `CRUDRuntime.run` terminates for every integer ticks value: the
loop body executes exactly `ticks` times when `ticks ≥ 0` and zero times
when `ticks < 0`, after which `"Done"` is printed. -/
theorem crudruntime_run_terminates (t : Int) :
    CRUDRuntime.run t = (t.toNat, "Done") ∧
    (0 ≤ t → ((CRUDRuntime.run t).1 : Int) = t) ∧
    (t < 0 → (CRUDRuntime.run t).1 = 0) := by
  refine ⟨?_, ?_, ?_⟩ <;>
    (simp [CRUDRuntime.run, loopIters_eq]; try omega)

/-- C9 witness: zero iterations at ticks = −2 and three iterations at
ticks = 3. -/
theorem crudruntime_run_terminates_witness :
    (CRUDRuntime.run (-2)).1 = 0 ∧ ((CRUDRuntime.run 3).1 : Int) = 3 :=
  ⟨(crudruntime_run_terminates (-2)).2.2 (by decide),
   (crudruntime_run_terminates 3).2.1 (by decide)⟩

/-- C10: when the `--connect` argument does not split on single spaces
into exactly three parts, the program prints a usage hint and proceeds
with the default url, db and collection instead of failing. -/
theorem connect_fallback_defaults (s : String)
    (h : (pySplit s ' ').length ≠ 3) :
    resolveConnect (some s) = ((defaultUrl, defaultDb, defaultCollection), true) := by
  simp [resolveConnect, h]

/-- C10 witness: a two-part `--connect` argument falls back to the
defaults with the hint printed. -/
theorem connect_fallback_defaults_witness :
    (pySplit "mongodb://127.0.0.1:27017 test" ' ').length ≠ 3 ∧
    resolveConnect (some "mongodb://127.0.0.1:27017 test")
      = ((defaultUrl, defaultDb, defaultCollection), true) :=
  ⟨by decide, connect_fallback_defaults "mongodb://127.0.0.1:27017 test" (by decide)⟩

end MongoProfiler
